import Mathlib

/-!
Shallow embedding of the dox-temp-mail background mail engine
(src/db.py, src/config.py, src/bot/sse_listener.py, src/bot/mail_service.py,
src/bot/rate_limiter.py, src/bot/message_parser.py), together with theorems
settling the specification claims about it.

Conventions of the embedding:
* The SQLite `messages_seen` table is modelled by the list of its
  `message_id` primary keys (the `seen_at` column never influences
  membership or the claim/unclaim logic, only the independent cleanup).
* Concurrent `claim` calls are serialised: SQLite executes the
  `INSERT OR IGNORE` statements atomically, so any concurrent execution
  is equivalent to some sequential order of the atomic claims, which is
  what `claimN` iterates.
* Wall-clock instants are rationals; machine floats of `time.monotonic`
  are modelled exactly by ℚ.
* Network I/O is modelled by an oracle `Nat → Outcome` giving the result
  of each successive HTTP attempt.
-/

/-! ### Configuration constants (src/config.py) -/

/-- src/config.py line 14: `SESSION_MAX_AGE_SECONDS = 3600`. -/
def SESSION_MAX_AGE_SECONDS : Int := 3600

/-- src/config.py line 21: `RETRY_ATTEMPTS = 3`. -/
def RETRY_ATTEMPTS : Nat := 3

/-- src/config.py line 22: `RETRY_BACKOFF = [1, 2, 4]` (seconds). -/
def RETRY_BACKOFF : List Nat := [1, 2, 4]

/-- src/config.py line 25: `MAX_LINKS_PER_MESSAGE = 5`. -/
def MAX_LINKS_PER_MESSAGE : Nat := 5

/-! ### Seen ledger (src/db.py) -/

/-- State of the `messages_seen` table: the list of stored message ids
(primary keys, hence duplicate-free by construction of the operations). -/
abbrev Ledger := List String

/-- src/db.py `claim_message_seen` (lines 119-133): `INSERT OR IGNORE` of the
message id; `rowcount == 1` exactly when the row was absent and got inserted.
Returns the boolean result together with the table state after the call. -/
def claim_message_seen (L : Ledger) (message_id : String) : Bool × Ledger :=
  if message_id ∈ L then (false, L) else (true, L ++ [message_id])

/-- src/db.py `unmark_message_seen` (lines 136-143): `DELETE FROM messages_seen
WHERE message_id = ?`. -/
def unmark_message_seen (L : Ledger) (message_id : String) : Ledger :=
  L.filter (fun x => x ≠ message_id)

/-- `n` successive atomic `claim_message_seen` calls for the same id
(the serialisation of `n` concurrent claims): list of returned booleans
and final table state. -/
def claimN : Nat → Ledger → String → (List Bool × Ledger)
  | 0, L, _ => ([], L)
  | n + 1, L, id =>
    let r := claim_message_seen L id
    let rest := claimN n r.2 id
    (r.1 :: rest.1, rest.2)

/-! ### Per-message pipeline of a polling cycle (src/bot/sse_listener.py) -/

/-- One iteration of the message loop in `_check_new_messages`
(src/bot/sse_listener.py lines 44-55).  `msgId` is `msg.get("id")`
(`none` models a missing id; the code also skips a present-but-empty id,
Python falsiness).  `processOk` tells whether the
`get_message_detail` / `parse_message` / `on_new` block runs without
raising.  Result: ledger state afterwards, and whether the message was
delivered (contributed to `any_new`). -/
def processMessage (L : Ledger) (msgId : Option String) (processOk : Bool) :
    Ledger × Bool :=
  match msgId with
  | none => (L, false)
  | some id =>
    if id = "" then (L, false)
    else
      let c := claim_message_seen L id
      if !c.1 then (c.2, false)
      else if processOk then (c.2, true)
      else (unmark_message_seen c.2 id, false)

/-- src/bot/sse_listener.py `_adaptive_interval` (lines 28-33), with the
configurable `POLL_INTERVAL` base as a parameter. -/
def adaptive_interval (pollInterval : Nat) (session_count : Nat) : Nat :=
  if session_count < 100 then pollInterval
  else if session_count < 300 then max pollInterval 45
  else 60

/-- src/bot/sse_listener.py `_is_expired` (lines 18-26).  The
`datetime.fromisoformat` library call (with the `Z` replacement and the
naive-timezone default) is abstracted into `parse`, which yields the epoch
second of `created_at`, or `none` when parsing raises; the `except` branch
of the source returns `True` in that case. -/
def is_expired (parse : String → Option Int) (now : Int) (created_at : String) :
    Bool :=
  match parse created_at with
  | some dt => decide (now - dt > SESSION_MAX_AGE_SECONDS)
  | none => true

/-- A row of the `sessions` table (src/db.py lines 27-33). -/
structure Session where
  user_id : String
  email : String
  token : String
  account_id : String
  created_at : String
deriving DecidableEq

/-- src/bot/sse_listener.py line 65: the active set of a polling cycle,
`[s for s in sessions if not _is_expired(s["created_at"])]`. -/
def activeSessions (parse : String → Option Int) (now : Int)
    (sessions : List Session) : List Session :=
  sessions.filter (fun s => !is_expired parse now s.created_at)

/-! ### Mail provider client (src/bot/mail_service.py) -/

/-- Result of one HTTP attempt inside `_retry_request`: either
`requests.request` raised a timeout, or it returned a response with the
given status code. -/
inductive Outcome where
  | timeout : Outcome
  | resp : Nat → Outcome
deriving DecidableEq

/-- The exception live in `last_exc` after a failed attempt. -/
inductive ReqError where
  | timeoutErr : ReqError
  | serverError : Nat → ReqError
deriving DecidableEq

/-- The exception recorded by the `except` clause for a failed attempt. -/
def errOf : Outcome → ReqError
  | .timeout => .timeoutErr
  | .resp s => .serverError s

/-- An attempt outcome that the `except (Timeout, RequestException)` clause
catches: a timeout, or a 5xx status (re-raised by the body as a
`RequestException`). -/
def isTransient : Outcome → Bool
  | .timeout => true
  | .resp s => decide (500 ≤ s) && decide (s < 600)

/-- The `for attempt in range(RETRY_ATTEMPTS)` loop of `_retry_request`
(src/bot/mail_service.py lines 19-34), with `r + 1` attempts remaining and
the current loop index `attempt`.  `outcomes k` is the result of the HTTP
request of loop iteration `k`.  Returns the status code of the returned
response (or the raised `last_exc`), together with the list of delays the
loop slept, in order: `RETRY_BACKOFF[min(attempt, len(RETRY_BACKOFF)-1)]`
before each retry.  The `0` fuel case is unreachable from `retry_request`
since `RETRY_ATTEMPTS = 3 ≥ 1`. -/
def retryGo (outcomes : Nat → Outcome) : Nat → Nat → Except ReqError Nat × List Nat
  | _, 0 => (.error .timeoutErr, [])
  | attempt, r + 1 =>
    match outcomes attempt with
    | .resp s =>
      if 500 ≤ s ∧ s < 600 then
        if r = 0 then (.error (.serverError s), [])
        else
          let rest := retryGo outcomes (attempt + 1) r
          (rest.1, RETRY_BACKOFF.getD (min attempt (RETRY_BACKOFF.length - 1)) 0 :: rest.2)
      else (.ok s, [])
    | .timeout =>
      if r = 0 then (.error .timeoutErr, [])
      else
        let rest := retryGo outcomes (attempt + 1) r
        (rest.1, RETRY_BACKOFF.getD (min attempt (RETRY_BACKOFF.length - 1)) 0 :: rest.2)

/-- src/bot/mail_service.py `_retry_request` (lines 19-34). -/
def retry_request (outcomes : Nat → Outcome) : Except ReqError Nat × List Nat :=
  retryGo outcomes 0 RETRY_ATTEMPTS

/-- The address-conflict recursion of `create_account`
(src/bot/mail_service.py lines 59-67): `resp` gives the status code of the
k-th `POST /accounts` attempt (after its own `_retry_request` loop); on 422
the function calls itself again with a freshly generated local part, which
cannot affect termination and is abstracted away.  Since the source has no
recursion bound, the embedding carries explicit fuel: `none` means the
recursion is still running (still conflicting) after `fuel` attempts. -/
def createAccountRetry (resp : Nat → Nat) : Nat → Nat → Option Nat
  | _, 0 => none
  | attempt, fuel + 1 =>
    if resp attempt = 422 then createAccountRetry resp (attempt + 1) fuel
    else some (resp attempt)

/-! ### Rate limiter (src/bot/rate_limiter.py) -/

/-- src/bot/rate_limiter.py `is_allowed` (lines 32-46), restricted to the
single bucket of one `(user_id, action)` key, whose configured pair is
`(max_count, window)`. `ts` is `_buckets[key]`, `now` is `time.monotonic()`.
The lazy `_cleanup_if_needed` sweep only pops other, empty keys and never
alters the bucket being consulted.  Returns the boolean result and the
bucket contents after the call. -/
def is_allowed (max_count : Nat) (window : ℚ) (ts : List ℚ) (now : ℚ) :
    Bool × List ℚ :=
  let pruned := ts.filter (fun t => now - window < t)
  if max_count ≤ pruned.length then (false, pruned)
  else (true, pruned ++ [now])

/-- Successive `is_allowed` calls on one bucket at the given instants:
list of returned booleans and final bucket contents. -/
def allowRun (max_count : Nat) (window : ℚ) (ts : List ℚ) :
    List ℚ → (List Bool × List ℚ)
  | [] => ([], ts)
  | t :: rest =>
    let r := is_allowed max_count window ts t
    let rec' := allowRun max_count window r.2 rest
    (r.1 :: rec'.1, rec'.2)

/-! ### Message parser (src/bot/message_parser.py)

Texts and URLs are lists of characters; `String.toList` converts the
literals.  Python string methods are embedded as explicit list functions. -/

/-- `str.lower()` restricted to the character classes the parser constants
use: ASCII letters and the basic Cyrillic uppercase range (`код` keyword).
All source heuristics compare lowercased text against lowercase constants. -/
def pyLower (c : Char) : Char :=
  if 'A' ≤ c ∧ c ≤ 'Z' then Char.ofNat (c.toNat + 32)
  else if 'А' ≤ c ∧ c ≤ 'Я' then Char.ofNat (c.toNat + 32)
  else c

/-- `s.lower()` on a whole string. -/
def lowerSeq (u : List Char) : List Char := u.map pyLower

/-- Does `l` start with `pat` (exact characters)? -/
def startsWithSeq : List Char → List Char → Bool
  | [], _ => true
  | _ :: _, [] => false
  | p :: ps, c :: cs => p = c && startsWithSeq ps cs

/-- Python `pat in l`: does `pat` occur contiguously inside `l`? -/
def containsSeq (pat : List Char) : List Char → Bool
  | [] => pat.isEmpty
  | c :: cs => startsWithSeq pat (c :: cs) || containsSeq pat cs

/-- Python `l.endswith(pat)`. -/
def endsWithSeq (pat l : List Char) : Bool :=
  startsWithSeq pat.reverse l.reverse

/-- Does `l` start with `pat`, comparing case-insensitively (`re.IGNORECASE`)? -/
def startsWithCI : List Char → List Char → Bool
  | [], _ => true
  | _ :: _, [] => false
  | p :: ps, c :: cs => pyLower p = pyLower c && startsWithCI ps cs

/-- `u.split("?")[0]`: the part before the first question mark. -/
def beforeQuery (u : List Char) : List Char :=
  u.takeWhile (fun c => c ≠ '?')

/-- The extension tuple of `_is_image_or_tracking`
(src/bot/message_parser.py line 48). -/
def IMAGE_EXTS : List (List Char) :=
  [".png".toList, ".jpg".toList, ".jpeg".toList, ".gif".toList,
    ".webp".toList, ".svg".toList, ".ico".toList]

/-- The tracking/asset fragment tuple of `_is_image_or_tracking`
(src/bot/message_parser.py lines 50-51). -/
def TRACKING_FRAGS : List (List Char) :=
  ["/pixel".toList, "tracking".toList, "analytics".toList, "pixel.".toList,
    "unsubscribe".toList, "open?".toList, "cdn.".toList, "static.".toList,
    "img.".toList, "images.".toList, "assets.".toList, "logo.".toList,
    "icon.".toList]

/-- src/bot/message_parser.py `_is_image_or_tracking` (lines 45-53). -/
def is_image_or_tracking (url : List Char) : Bool :=
  let u := lowerSeq url
  if IMAGE_EXTS.any (fun ext => endsWithSeq ext u || containsSeq ext (beforeQuery u)) then
    true
  else if TRACKING_FRAGS.any (fun x => containsSeq x u) then true
  else false

/-- Tier-0 keywords of `_activation_priority` (src/bot/message_parser.py line 59). -/
def TIER0_WORDS : List (List Char) :=
  ["activate".toList, "activation".toList, "verify".toList,
    "verification".toList, "confirm".toList, "confirmation".toList]

/-- Tier-1 keywords of `_activation_priority` (src/bot/message_parser.py line 61). -/
def TIER1_WORDS : List (List Char) :=
  ["signup".toList, "sign-up".toList, "register".toList, "token".toList,
    "auth".toList]

/-- src/bot/message_parser.py `_activation_priority` (lines 56-63):
lower number means higher priority. -/
def activation_priority (url : List Char) : Nat :=
  let u := lowerSeq url
  if TIER0_WORDS.any (fun x => containsSeq x u) then 0
  else if TIER1_WORDS.any (fun x => containsSeq x u) then 1
  else 2

/-- `u.rstrip(".,;:!)")` (src/bot/message_parser.py line 119). -/
def rstripPunct (u : List Char) : List Char :=
  (u.reverse.dropWhile (fun c => c ∈ ['.', ',', ';', ':', '!', ')'])).reverse

/-- The deduplicate-and-filter loop of `extract_urls`
(src/bot/message_parser.py lines 116-122): keep each cleaned URL the first
time it appears, provided it is shorter than 500 characters and not an
image/tracking URL. -/
def cleanCandidates : List (List Char) → List (List Char) → List (List Char)
  | _, [] => []
  | seen, u :: rest =>
    let c := rstripPunct u
    if !seen.contains c && decide (c.length < 500) && !is_image_or_tracking c then
      c :: cleanCandidates (c :: seen) rest
    else cleanCandidates seen rest

/-- src/bot/message_parser.py `extract_urls` (lines 104-124), from the
deduplication loop on: the input list stands for the iteration order of the
`urls` set collected from the text and HTML regex scans.
`candidates.sort(key=_activation_priority)` is a stable sort on a key with
values in `{0, 1, 2}`, hence equal to concatenating the three priority
classes in input order. -/
def extract_urls (urls : List (List Char)) : List (List Char) :=
  let candidates := cleanCandidates [] urls
  let sorted :=
    candidates.filter (fun u => activation_priority u = 0)
      ++ candidates.filter (fun u => activation_priority u = 1)
      ++ candidates.filter (fun u => activation_priority u = 2)
  sorted.take MAX_LINKS_PER_MESSAGE

/-- Python `\w` on the character classes occurring here (ASCII word chars). -/
def isWordChar (c : Char) : Bool :=
  ('a' ≤ c && c ≤ 'z') || ('A' ≤ c && c ≤ 'Z') || ('0' ≤ c && c ≤ '9') || c = '_'

/-- Python `\d` (ASCII digits). -/
def isDigitChar (c : Char) : Bool :=
  '0' ≤ c && c ≤ '9'

/-- The regex class `[A-Za-z0-9]`. -/
def isAlnumChar (c : Char) : Bool :=
  ('a' ≤ c && c ≤ 'z') || ('A' ≤ c && c ≤ 'Z') || isDigitChar c

/-- Python `\s` (ASCII whitespace: space, tab, newline, return, vertical
tab, form feed). -/
def isSpaceChar (c : Char) : Bool :=
  c.toNat = 32 || c.toNat = 9 || c.toNat = 10 || c.toNat = 13 ||
    c.toNat = 11 || c.toNat = 12

/-- A `\b` word boundary on the left of the scan position, given the
character just before it (`none` at the start of the text). -/
def boundaryBefore : Option Char → Bool
  | none => true
  | some p => !isWordChar p

/-- A `\b` word boundary on the right, given the rest of the text. -/
def boundaryAfter : List Char → Bool
  | [] => true
  | c :: _ => !isWordChar c

/-- Matcher at one scan position for `\b(\d{n})\b`
(src/bot/message_parser.py lines 21-23 with n = 6, 4, 8): `n` digits framed
by word boundaries; the capture and the consumed span are the digits. -/
def digitRunMatchAt (n : Nat) (prev : Option Char) (l : List Char) :
    Option (List Char × Nat) :=
  let run := l.take n
  if boundaryBefore prev && decide (run.length = n) && run.all isDigitChar
      && boundaryAfter (l.drop n) then
    some (run, n)
  else none

/-- Matcher at one scan position for `kw[:\s]+([A-Za-z0-9]{4,12})` with
`re.IGNORECASE` (src/bot/message_parser.py lines 24-27).  The separator
class and the capture class are disjoint, so the greedy runs need no
backtracking: the match succeeds iff at least one separator follows the
keyword and at least 4 alphanumeric characters follow the separators; the
greedy capture takes at most 12 of them. -/
def kwMatchAt (kw : List Char) (_prev : Option Char) (l : List Char) :
    Option (List Char × Nat) :=
  if startsWithCI kw l then
    let r1 := l.drop kw.length
    let seps := r1.takeWhile (fun c => c = ':' || isSpaceChar c)
    if seps.isEmpty then none
    else
      let r2 := r1.drop seps.length
      let run := r2.takeWhile isAlnumChar
      if run.length < 4 then none
      else
        let cap := run.take 12
        some (cap, kw.length + seps.length + cap.length)
  else none

/-- The alternatives of `(?:is your|код|code)`
(src/bot/message_parser.py line 28), in regex order. -/
def SUFFIX_LITS : List (List Char) :=
  ["is your".toList, "код".toList, "code".toList]

/-- The list `[hi, hi-1, ..., lo]` (backtracking from the greedy maximum). -/
def descRange (hi lo : Nat) : List Nat :=
  (List.range (hi + 1 - lo)).map (fun i => hi - i)

/-- Matcher at one scan position for
`([A-Za-z0-9]{6,12})\s*(?:is your|код|code)` with `re.IGNORECASE`
(src/bot/message_parser.py line 28): the greedy capture tries 12 down to 6
characters, the greedy `\s*` tries the whole space run down to none, the
alternation tries its branches left to right; the first combination that
matches wins. -/
def suffixMatchAt (_prev : Option Char) (l : List Char) :
    Option (List Char × Nat) :=
  let run := l.takeWhile isAlnumChar
  if run.length < 6 then none
  else
    (descRange (min run.length 12) 6).findSome? (fun k =>
      let after := l.drop k
      let smax := (after.takeWhile isSpaceChar).length
      (descRange smax 0).findSome? (fun j =>
        let tail := after.drop j
        SUFFIX_LITS.findSome? (fun lit =>
          if startsWithCI lit tail then some (l.take k, k + j + lit.length)
          else none)))

/-- `pattern.finditer(text)`: repeatedly find the leftmost match, emit its
capture, and continue right after the matched span (every pattern here
consumes at least one character); `prev` is the character before the scan
position, for the word-boundary assertions. -/
def finditerAux (matchAt : Option Char → List Char → Option (List Char × Nat)) :
    Nat → Option Char → List Char → List (List Char)
  | 0, _, _ => []
  | _ + 1, _, [] => []
  | fuel + 1, prev, c :: cs =>
    match matchAt prev (c :: cs) with
    | some (cap, k) =>
      cap :: finditerAux matchAt fuel (some (((c :: cs).take (max k 1)).getLastD c))
        ((c :: cs).drop (max k 1))
    | none => finditerAux matchAt fuel (some c) cs

/-- All captures of one pattern over the text.  Every step of the scan
consumes at least one character, so `text.length` steps always finish the
scan and the fuel is never the reason the recursion stops. -/
def finditer (matchAt : Option Char → List Char → Option (List Char × Nat))
    (text : List Char) : List (List Char) :=
  finditerAux matchAt text.length none text

/-- src/bot/message_parser.py `CODE_PATTERNS` (lines 20-29), as position
matchers, in source order. -/
def CODE_PATTERNS : List (Option Char → List Char → Option (List Char × Nat)) :=
  [digitRunMatchAt 6, digitRunMatchAt 4, digitRunMatchAt 8,
    kwMatchAt "code".toList, kwMatchAt "verification".toList,
    kwMatchAt "otp".toList, kwMatchAt "activate".toList, suffixMatchAt]

/-- src/bot/message_parser.py `CODE_STOPLIST` (lines 32-42). -/
def CODE_STOPLIST : List (List Char) :=
  ["team".toList, "logo".toList, "started".toList, "paste".toList,
    "below".toList, "message".toList, "reserved".toList, "medium".toList,
    "quadcode".toList,
    "click".toList, "here".toList, "link".toList, "view".toList,
    "open".toList, "read".toList, "more".toList, "less".toList,
    "some".toList,
    "your".toList, "this".toList, "that".toList, "with".toList,
    "from".toList, "have".toList, "been".toList, "will".toList,
    "would".toList,
    "could".toList, "should".toList, "about".toList, "into".toList,
    "only".toList, "over".toList, "such".toList, "than".toList,
    "them".toList, "they".toList, "when".toList, "where".toList,
    "which".toList, "while".toList, "after".toList, "before".toList,
    "right".toList, "left".toList, "back".toList, "next".toList,
    "then".toList, "just".toList, "also".toList, "very".toList,
    "html".toList, "body".toList, "head".toList, "span".toList,
    "div".toList, "font".toList, "size".toList, "color".toList,
    "width".toList, "height".toList, "style".toList, "class".toList,
    "href".toList, "http".toList, "https".toList]

/-- First-occurrence deduplication: models collecting the candidates into
the Python set `codes` (membership semantics; the order of `list(codes)` is
unspecified in the source, the model keeps first-occurrence order). -/
def dedupKeep : List (List Char) → List (List Char) → List (List Char)
  | _, [] => []
  | seen, c :: rest =>
    if seen.contains c then dedupKeep seen rest
    else c :: dedupKeep (c :: seen) rest

/-- src/bot/message_parser.py `extract_codes` (lines 127-140): run every
pattern over the text, keep captures that are 4-12 characters, not
stoplisted (lowercased), and contain a digit or are at least 7 characters;
collect into a set and return at most 10. -/
def extract_codes (text : List Char) : List (List Char) :=
  if text.isEmpty then []
  else
    let candidates := CODE_PATTERNS.flatMap (fun p => finditer p text)
    let filtered := candidates.filter (fun code =>
      !code.isEmpty && decide (4 ≤ code.length) && decide (code.length ≤ 12)
        && !CODE_STOPLIST.contains (lowerSeq code)
        && (code.any isDigitChar || decide (7 ≤ code.length)))
    (dedupKeep [] filtered).take 10

/-! ### Theorems -/

/-- C1: `claim_message_seen` returns true iff the id was absent before the
call (the call performed the insert); afterwards the id is present; and among
`n ≥ 1` serialised claims of a fresh id, exactly one returns true. -/
theorem claim_exactly_once (L : Ledger) (id : String) (n : Nat)
    (hn : 1 ≤ n) (hfresh : id ∉ L) :
    ((claim_message_seen L id).1 = true ↔ id ∉ L) ∧
    id ∈ (claim_message_seen L id).2 ∧
    ((claimN n L id).1.count true = 1) := by
  refine ⟨?_, ?_, ?_⟩
  · simp [claim_message_seen, hfresh]
  · by_cases h : id ∈ L
    · simp [claim_message_seen, h]
    · simp [claim_message_seen, h]
  · obtain ⟨m, rfl⟩ : ∃ m, n = m + 1 := ⟨n - 1, (Nat.succ_pred_eq_of_pos hn).symm⟩
    have key : ∀ (k : Nat) (M : Ledger), id ∈ M → (claimN k M id).1.count true = 0 := by
      intro k
      induction k with
      | zero => intro M _; simp [claimN]
      | succ k ih =>
        intro M hM
        simp only [claimN, claim_message_seen, if_pos hM]
        have := ih M hM
        simp [List.count_cons, this]
    simp only [claimN, claim_message_seen, if_neg hfresh]
    have hmem : id ∈ L ++ [id] := by simp
    have := key m (L ++ [id]) hmem
    simp [List.count_cons, this]

/-- C1 witness. -/
theorem claim_exactly_once_witness :
    ((claim_message_seen [] "m1").1 = true ↔ "m1" ∉ ([] : Ledger)) ∧
    "m1" ∈ (claim_message_seen [] "m1").2 ∧
    ((claimN 3 [] "m1").1.count true = 1) :=
  claim_exactly_once [] "m1" 3 (by decide) (by decide)

/-- C2: after `claim` then `unclaim`, the id is no longer recorded and a
further `claim` of the same id succeeds again; the first claim of a fresh id
returned true. -/
theorem reclaim_after_release (L : Ledger) (id : String) (hfresh : id ∉ L) :
    (claim_message_seen L id).1 = true ∧
    id ∉ unmark_message_seen (claim_message_seen L id).2 id ∧
    (claim_message_seen (unmark_message_seen (claim_message_seen L id).2 id) id).1
      = true := by
  refine ⟨?_, ?_, ?_⟩
  · simp [claim_message_seen, hfresh]
  · simp [unmark_message_seen, List.mem_filter]
  · simp [claim_message_seen, hfresh, unmark_message_seen, List.mem_filter]

/-- C2 witness. -/
theorem reclaim_after_release_witness :
    (claim_message_seen [] "m2").1 = true ∧
    "m2" ∉ unmark_message_seen (claim_message_seen [] "m2").2 "m2" ∧
    (claim_message_seen (unmark_message_seen (claim_message_seen [] "m2").2 "m2") "m2").1
      = true :=
  reclaim_after_release [] "m2" (by decide)

/-- C3: in the per-message pipeline, a fresh id that fails processing after
its successful claim is unclaimed — absent from the resulting ledger, so a
later claim of it succeeds again — while a successfully processed id stays
claimed. -/
theorem processing_failure_unclaims (L : Ledger) (id : String)
    (hid : id ≠ "") (hfresh : id ∉ L) :
    (id ∉ (processMessage L (some id) false).1 ∧
      (claim_message_seen (processMessage L (some id) false).1 id).1 = true) ∧
    id ∈ (processMessage L (some id) true).1 := by
  have hclaim : claim_message_seen L id = (true, L ++ [id]) := by
    simp [claim_message_seen, hfresh]
  have habsent : id ∉ (processMessage L (some id) false).1 := by
    simp [processMessage, hid, hclaim, unmark_message_seen, List.mem_filter]
  refine ⟨⟨habsent, ?_⟩, ?_⟩
  · simp [claim_message_seen, habsent]
  · simp [processMessage, hid, hclaim]

/-- C3 witness. -/
theorem processing_failure_unclaims_witness :
    (("m3" ∉ (processMessage [] (some "m3") false).1 ∧
      (claim_message_seen (processMessage [] (some "m3") false).1 "m3").1 = true)) ∧
    "m3" ∈ (processMessage [] (some "m3") true).1 :=
  processing_failure_unclaims [] "m3" (by decide) (by decide)

/-- While every pending instant lies within one window of every recorded
timestamp and the bucket has room, each call succeeds and just appends its
instant. -/
theorem allowRun_no_prune (max_count : Nat) (W t0 : ℚ) :
    ∀ (ts s : List ℚ),
      s.length + ts.length ≤ max_count →
      (∀ x ∈ s, ∀ u ∈ ts, u < x + W) →
      (∀ u ∈ ts, t0 ≤ u ∧ u < t0 + W) →
      allowRun max_count W s ts = (List.replicate ts.length true, s ++ ts) := by
  intro ts
  induction ts with
  | nil => intro s _ _ _; simp [allowRun]
  | cons t rest ih =>
    intro s hlen h1 h3
    have hfilter : s.filter (fun x => decide (t - W < x)) = s := by
      apply List.filter_eq_self.mpr
      intro x hx
      have := h1 x hx t (by simp)
      simp only [decide_eq_true_eq]
      linarith
    have hroom : ¬ max_count ≤ s.length := by
      simp only [List.length_cons] at hlen
      omega
    have hcall : is_allowed max_count W s t = (true, s ++ [t]) := by
      simp only [is_allowed, hfilter, if_neg hroom]
    have hrec : allowRun max_count W (s ++ [t]) rest =
        (List.replicate rest.length true, (s ++ [t]) ++ rest) := by
      apply ih
      · simp only [List.length_append, List.length_singleton, List.length_nil,
          List.length_cons] at hlen ⊢
        omega
      · intro x hx u hu
        rcases List.mem_append.mp hx with hxs | hxt
        · exact h1 x hxs u (by simp [hu])
        · have hx' : x = t := by simpa using hxt
          have hu' := h3 u (by simp [hu])
          have ht' := (h3 t (by simp)).1
          rw [hx']
          linarith [hu'.2, ht']
      · intro u hu
        exact h3 u (by simp [hu])
    simp only [allowRun, hcall, hrec, List.length_cons, List.replicate_succ,
      List.append_assoc, List.singleton_append]

theorem retryGo_resp_ok (outcomes : Nat → Outcome) (attempt r s : Nat)
    (h : outcomes attempt = .resp s) (hs : ¬ (500 ≤ s ∧ s < 600)) :
    retryGo outcomes attempt (r + 1) = (.ok s, []) := by
  simp [retryGo, h, hs]

theorem retryGo_transient_step (outcomes : Nat → Outcome) (attempt r : Nat)
    (h : isTransient (outcomes attempt) = true) (hr : r ≠ 0) :
    retryGo outcomes attempt (r + 1) =
      ((retryGo outcomes (attempt + 1) r).1,
        RETRY_BACKOFF.getD (min attempt (RETRY_BACKOFF.length - 1)) 0 ::
          (retryGo outcomes (attempt + 1) r).2) := by
  rcases ho : outcomes attempt with _ | s
  · simp [retryGo, ho, hr]
  · rw [ho] at h
    simp only [isTransient, Bool.and_eq_true, decide_eq_true_eq] at h
    simp [retryGo, ho, h, hr]

theorem retryGo_transient_last (outcomes : Nat → Outcome) (attempt : Nat)
    (h : isTransient (outcomes attempt) = true) :
    retryGo outcomes attempt 1 = (.error (errOf (outcomes attempt)), []) := by
  rcases ho : outcomes attempt with _ | s
  · simp [retryGo, ho, errOf]
  · rw [ho] at h
    simp only [isTransient, Bool.and_eq_true, decide_eq_true_eq] at h
    simp [retryGo, ho, h, errOf]

theorem not_transient_resp (s : Nat) (hs : isTransient (.resp s) = false) :
    ¬ (500 ≤ s ∧ s < 600) := by
  simp only [isTransient, Bool.and_eq_false_iff, decide_eq_false_iff_not,
    Nat.not_le, Nat.not_lt] at hs
  rcases hs with h | h
  · exact fun hc => absurd hc.1 (Nat.not_le.mpr h)
  · exact fun hc => absurd hc.2 (Nat.not_lt.mpr h)

/-- C4: the provider retry loop returns any non-5xx response immediately
without sleeping; a call transient (timeout or 5xx) on the first two
attempts and non-5xx on the third returns that response having slept the
configured backoff delays 1 and 2 between the attempts; and a call
transient on all `RETRY_ATTEMPTS = 3` attempts raises the last recorded
error after the same sleeps. -/
theorem backoff_retry_spec (outcomes : Nat → Outcome) :
    (∀ s, outcomes 0 = .resp s → isTransient (.resp s) = false →
      retry_request outcomes = (.ok s, [])) ∧
    (∀ s, isTransient (outcomes 0) = true → isTransient (outcomes 1) = true →
      outcomes 2 = .resp s → isTransient (.resp s) = false →
      retry_request outcomes = (.ok s, [1, 2])) ∧
    (isTransient (outcomes 0) = true → isTransient (outcomes 1) = true →
      isTransient (outcomes 2) = true →
      retry_request outcomes = (.error (errOf (outcomes 2)), [1, 2])) := by
  have hback1 : RETRY_BACKOFF.getD (min 0 (RETRY_BACKOFF.length - 1)) 0 = 1 := by
    decide
  have hback2 : RETRY_BACKOFF.getD (min 1 (RETRY_BACKOFF.length - 1)) 0 = 2 := by
    decide
  have hRA : RETRY_ATTEMPTS = 2 + 1 := by decide
  refine ⟨?_, ?_, ?_⟩
  · intro s h0 hs
    rw [retry_request, hRA, retryGo_resp_ok outcomes 0 2 s h0 (not_transient_resp s hs)]
  · intro s h0 h1 h2 hs
    have step2 : retryGo outcomes 2 1 = (.ok s, []) :=
      retryGo_resp_ok outcomes 2 0 s h2 (not_transient_resp s hs)
    have step1 : retryGo outcomes 1 2 = (.ok s, [2]) := by
      rw [retryGo_transient_step outcomes 1 1 h1 (by decide), step2, hback2]
    rw [retry_request, hRA, retryGo_transient_step outcomes 0 2 h0 (by decide),
      step1, hback1]
  · intro h0 h1 h2
    have step2 : retryGo outcomes 2 1 = (.error (errOf (outcomes 2)), []) :=
      retryGo_transient_last outcomes 2 h2
    have step1 : retryGo outcomes 1 2 = (.error (errOf (outcomes 2)), [2]) := by
      rw [retryGo_transient_step outcomes 1 1 h1 (by decide), step2, hback2]
    rw [retry_request, hRA, retryGo_transient_step outcomes 0 2 h0 (by decide),
      step1, hback1]

/-- C4 witness: a concrete oracle failing with 503 twice and answering 200 on
the third attempt. -/
theorem backoff_retry_spec_witness :
    retry_request (fun k => if k < 2 then .resp 503 else .resp 200)
      = (.ok 200, [1, 2]) :=
  (backoff_retry_spec (fun k => if k < 2 then .resp 503 else .resp 200)).2.1
    200 (by decide) (by decide) (by decide) (by decide)

/-- Everything the dedup-and-filter loop of `extract_urls` keeps has passed
the image/tracking exclusion. -/
theorem cleanCandidates_not_tracking :
    ∀ (l seen : List (List Char)) (u : List Char),
      u ∈ cleanCandidates seen l → is_image_or_tracking u = false := by
  intro l
  induction l with
  | nil => intro seen u h; simp [cleanCandidates] at h
  | cons a rest ih =>
    intro seen u h
    simp only [cleanCandidates] at h
    split at h
    next hcond =>
      simp only [Bool.and_eq_true, Bool.not_eq_true'] at hcond
      rcases List.mem_cons.mp h with h1 | h2
      · rw [h1]
        exact hcond.2
      · exact ih _ u h2
    next => exact ih _ u h

/-- A list whose members all sit in one priority tier is sorted by tier. -/
theorem pairwise_tier_le (i : Nat) :
    ∀ l : List (List Char), (∀ u ∈ l, activation_priority u = i) →
      l.Pairwise (fun a b => activation_priority a ≤ activation_priority b) := by
  intro l
  induction l with
  | nil => intro _; exact List.Pairwise.nil
  | cons a rest ih =>
    intro h
    refine List.Pairwise.cons ?_ (ih ?_)
    · intro b hb
      rw [h a (by simp), h b (by simp [hb])]
    · intro u hu
      exact h u (by simp [hu])

/-- C7: link extraction excludes every URL matching the image/tracking
heuristics, returns the survivors ordered by non-decreasing priority tier
(the stable three-tier sort), caps the result at
`MAX_LINKS_PER_MESSAGE = 5`; and on the spec triple the verify link comes
first, the `.png` asset link is excluded, and the plain page link follows
at lower priority. -/
theorem link_ranking_spec :
    (∀ urls : List (List Char),
      (extract_urls urls).length ≤ MAX_LINKS_PER_MESSAGE ∧
      (∀ u ∈ extract_urls urls, is_image_or_tracking u = false) ∧
      (extract_urls urls).Pairwise
        (fun a b => activation_priority a ≤ activation_priority b)) ∧
    extract_urls ["https://x/verify?x".toList, "https://x/page".toList,
        "https://cdn.x/logo.png".toList]
      = ["https://x/verify?x".toList, "https://x/page".toList] := by
  constructor
  · intro urls
    refine ⟨List.length_take_le _ _, ?_, ?_⟩
    · intro u hu
      have hu' : u ∈
          (cleanCandidates [] urls).filter (fun v => decide (activation_priority v = 0))
            ++ (cleanCandidates [] urls).filter (fun v => decide (activation_priority v = 1))
            ++ (cleanCandidates [] urls).filter (fun v => decide (activation_priority v = 2)) :=
        List.mem_of_mem_take hu
      rcases List.mem_append.mp hu' with h01 | h2
      · rcases List.mem_append.mp h01 with h0 | h1
        · exact cleanCandidates_not_tracking urls [] u (List.mem_filter.mp h0).1
        · exact cleanCandidates_not_tracking urls [] u (List.mem_filter.mp h1).1
      · exact cleanCandidates_not_tracking urls [] u (List.mem_filter.mp h2).1
    · have p0 := pairwise_tier_le 0
        ((cleanCandidates [] urls).filter (fun v => decide (activation_priority v = 0)))
        (fun u hu => of_decide_eq_true (List.mem_filter.mp hu).2)
      have p1 := pairwise_tier_le 1
        ((cleanCandidates [] urls).filter (fun v => decide (activation_priority v = 1)))
        (fun u hu => of_decide_eq_true (List.mem_filter.mp hu).2)
      have p2 := pairwise_tier_le 2
        ((cleanCandidates [] urls).filter (fun v => decide (activation_priority v = 2)))
        (fun u hu => of_decide_eq_true (List.mem_filter.mp hu).2)
      have hcross01 : ∀ a ∈
          (cleanCandidates [] urls).filter (fun v => decide (activation_priority v = 0)),
          ∀ b ∈ (cleanCandidates [] urls).filter (fun v => decide (activation_priority v = 1)),
          activation_priority a ≤ activation_priority b := by
        intro a ha b _
        rw [of_decide_eq_true (List.mem_filter.mp ha).2]
        exact Nat.zero_le _
      have hsorted : ((cleanCandidates [] urls).filter (fun v => decide (activation_priority v = 0))
            ++ (cleanCandidates [] urls).filter (fun v => decide (activation_priority v = 1))
            ++ (cleanCandidates [] urls).filter (fun v => decide (activation_priority v = 2))).Pairwise
          (fun a b => activation_priority a ≤ activation_priority b) := by
        refine List.pairwise_append.mpr
          ⟨List.pairwise_append.mpr ⟨p0, p1, hcross01⟩, p2, ?_⟩
        intro a ha b hb
        rw [of_decide_eq_true (List.mem_filter.mp hb).2]
        rcases List.mem_append.mp ha with h0 | h1
        · rw [of_decide_eq_true (List.mem_filter.mp h0).2]
          omega
        · rw [of_decide_eq_true (List.mem_filter.mp h1).2]
          omega
      exact List.Pairwise.sublist (List.take_sublist _ _) hsorted
  · decide

/-- C7 witness: on a concrete input the survivor bound and the
image/tracking exclusion are instantiated. -/
theorem link_ranking_spec_witness :
    (extract_urls ["https://x/page".toList]).length ≤ MAX_LINKS_PER_MESSAGE ∧
    is_image_or_tracking "https://x/page".toList = false :=
  ⟨(link_ranking_spec.1 ["https://x/page".toList]).1,
    (link_ranking_spec.1 ["https://x/page".toList]).2.1
      "https://x/page".toList (by decide)⟩

/-- Membership in the deduplicated list implies membership in its input. -/
theorem mem_dedupKeep :
    ∀ (l seen : List (List Char)) (c : List Char),
      c ∈ dedupKeep seen l → c ∈ l := by
  intro l
  induction l with
  | nil => intro seen c h; simp [dedupKeep] at h
  | cons a rest ih =>
    intro seen c h
    simp only [dedupKeep] at h
    split at h
    next => exact List.mem_cons_of_mem a (ih _ c h)
    next =>
      rcases List.mem_cons.mp h with h1 | h2
      · rw [h1]; exact List.mem_cons_self a rest
      · exact List.mem_cons_of_mem a (ih _ c h2)

/-- C8: every code returned by `extract_codes` is 4-12 characters long, not
stoplisted (lowercased), and has a digit or at least 7 characters; at most
10 codes are returned; `"Your code is 482913"` yields exactly `"482913"`,
and the lone stoplisted word `"team"` yields nothing. -/
theorem code_extraction_spec :
    (∀ text code : List Char, code ∈ extract_codes text →
      4 ≤ code.length ∧ code.length ≤ 12 ∧
      CODE_STOPLIST.contains (lowerSeq code) = false ∧
      (code.any isDigitChar = true ∨ 7 ≤ code.length)) ∧
    (∀ text : List Char, (extract_codes text).length ≤ 10) ∧
    extract_codes "Your code is 482913".toList = ["482913".toList] ∧
    extract_codes "team".toList = [] := by
  refine ⟨?_, ?_, by decide, by decide⟩
  · intro text code h
    simp only [extract_codes] at h
    split at h
    next => simp at h
    next =>
      have hmem := mem_dedupKeep _ [] code (List.mem_of_mem_take h)
      have hp := (List.mem_filter.mp hmem).2
      simp only [Bool.and_eq_true, Bool.not_eq_true', Bool.or_eq_true,
        decide_eq_true_eq] at hp
      exact ⟨hp.1.1.1.2, hp.1.1.2, hp.1.2, hp.2⟩
  · intro text
    simp only [extract_codes]
    split
    next => simp
    next => exact List.length_take_le _ _

/-- C8 witness: the returned code `"482913"` satisfies the guarantees. -/
theorem code_extraction_spec_witness :
    4 ≤ "482913".toList.length ∧ "482913".toList.length ≤ 12 ∧
    CODE_STOPLIST.contains (lowerSeq "482913".toList) = false ∧
    ("482913".toList.any isDigitChar = true ∨ 7 ≤ "482913".toList.length) :=
  code_extraction_spec.1 "Your code is 482913".toList "482913".toList (by decide)

/-- C6: for a key with configured pair `(L, W)`: every call first drops
timestamps older than `W` (everything it stores lies within the window
ending at `now`); `L` consecutive calls within `W` of the first all return
true; the `(L+1)`th call within the window returns false and leaves the
recorded sequence unchanged; and once `W` has elapsed since the first call,
a call returns true again. -/
theorem rate_window_spec (max_count : Nat) (W : ℚ) (t0 : ℚ) (rest : List ℚ)
    (hW : 0 < W) (hlen : (t0 :: rest).length = max_count)
    (hin : ∀ u ∈ t0 :: rest, t0 ≤ u ∧ u < t0 + W) :
    (∀ (ts : List ℚ) (now : ℚ), ∀ x ∈ (is_allowed max_count W ts now).2,
      now - W < x) ∧
    allowRun max_count W [] (t0 :: rest) =
      (List.replicate max_count true, t0 :: rest) ∧
    (∀ tL, (∀ u ∈ t0 :: rest, u ≤ tL) → tL < t0 + W →
      is_allowed max_count W (t0 :: rest) tL = (false, t0 :: rest)) ∧
    (∀ tA, t0 + W ≤ tA → (is_allowed max_count W (t0 :: rest) tA).1 = true) := by
  refine ⟨?_, ?_, ?_, ?_⟩
  · intro ts now x hx
    by_cases hc : max_count ≤ (ts.filter (fun t => decide (now - W < t))).length
    · rw [is_allowed] at hx
      simp only [if_pos hc] at hx
      have := (List.mem_filter.mp hx).2
      simpa using this
    · rw [is_allowed] at hx
      simp only [if_neg hc] at hx
      rcases List.mem_append.mp hx with h | h
      · have := (List.mem_filter.mp h).2
        simpa using this
      · have hx' : x = now := by simpa using h
        subst hx'
        linarith
  · have := allowRun_no_prune max_count W t0 (t0 :: rest) []
      (by simp [hlen]) (by simp) hin
    simpa [hlen] using this
  · intro tL hle hwin
    have hfilter : (t0 :: rest).filter (fun x => decide (tL - W < x)) =
        t0 :: rest := by
      apply List.filter_eq_self.mpr
      intro x hx
      have h1 := (hin x hx).1
      simp only [decide_eq_true_eq]
      linarith
    have hfull : max_count ≤ (t0 :: rest).length := hlen.ge
    simp only [is_allowed, hfilter, if_pos hfull]
  · intro tA hA
    have hdrop : ¬ tA - W < t0 := by linarith
    have hfilter : (t0 :: rest).filter (fun x => decide (tA - W < x)) =
        rest.filter (fun x => decide (tA - W < x)) := by
      simp [List.filter_cons, hdrop]
    have hshort :
        ¬ max_count ≤ ((t0 :: rest).filter (fun x => decide (tA - W < x))).length := by
      rw [hfilter]
      have := List.length_filter_le (fun x => decide (tA - W < x)) rest
      simp only [List.length_cons] at hlen
      omega
    simp only [is_allowed, if_neg hshort]

/-- C6 witness: the `create_mail` pair `(3, 3600)`, calls at instants 0, 1, 2,
a refused fourth call at instant 3, and a successful call at instant 3600. -/
theorem rate_window_spec_witness :
    (∀ (ts : List ℚ) (now : ℚ), ∀ x ∈ (is_allowed 3 3600 ts now).2,
      now - 3600 < x) ∧
    allowRun 3 3600 [] (0 :: [1, 2]) =
      (List.replicate 3 true, 0 :: [1, 2]) ∧
    (∀ tL, (∀ u ∈ (0 : ℚ) :: [1, 2], u ≤ tL) → tL < 0 + 3600 →
      is_allowed 3 3600 (0 :: [1, 2]) tL = (false, 0 :: [1, 2])) ∧
    (∀ tA, (0 : ℚ) + 3600 ≤ tA → (is_allowed 3 3600 (0 :: [1, 2]) tA).1 = true) :=
  rate_window_spec 3 3600 0 [1, 2] (by norm_num) (by decide)
    (by intro u hu; fin_cases hu <;> norm_num)

/-- C5: under sustained address conflicts (`POST /accounts` answering 422 on
every attempt) the regenerate-and-retry recursion of `create_account` never
completes within any finite number of attempts — it has no attempt bound. -/
theorem create_account_unbounded_on_sustained_conflict (fuel attempt : Nat) :
    createAccountRetry (fun _ => 422) attempt fuel = none := by
  induction fuel generalizing attempt with
  | zero => rfl
  | succ f ih => simp [createAccountRetry, ih]

/-- C9: the adaptive sleep interval depends only on the active-session
count: below 100 it is the configured base interval, from 100 up to 299 it
is `max base 45`, from 300 on it is `60`; in particular counts 50, 150 and
500 yield `base`, `max base 45` and `60`. -/
theorem adaptive_interval_spec (base : Nat) :
    adaptive_interval base 50 = base ∧
    adaptive_interval base 150 = max base 45 ∧
    adaptive_interval base 500 = 60 ∧
    (∀ c, c < 100 → adaptive_interval base c = base) ∧
    (∀ c, 100 ≤ c → c < 300 → adaptive_interval base c = max base 45) ∧
    (∀ c, 300 ≤ c → adaptive_interval base c = 60) := by
  refine ⟨by simp [adaptive_interval], by simp [adaptive_interval],
    by simp [adaptive_interval], ?_, ?_, ?_⟩
  · intro c hc
    simp [adaptive_interval, hc]
  · intro c h1 h2
    simp [adaptive_interval, Nat.not_lt.mpr h1, h2]
  · intro c h
    have h1 : ¬ c < 100 := by omega
    have h2 : ¬ c < 300 := by omega
    simp [adaptive_interval, h1, h2]

/-- C9 witness. -/
theorem adaptive_interval_spec_witness :
    adaptive_interval 15 50 = 15 ∧
    adaptive_interval 15 150 = max 15 45 ∧
    adaptive_interval 15 500 = 60 ∧
    (∀ c, c < 100 → adaptive_interval 15 c = 15) ∧
    (∀ c, 100 ≤ c → c < 300 → adaptive_interval 15 c = max 15 45) ∧
    (∀ c, 300 ≤ c → adaptive_interval 15 c = 60) :=
  adaptive_interval_spec 15

/-- C10: the expiry classifier fails closed: whenever `created_at` does not
parse, `_is_expired` returns true (instead of propagating the exception), so
such a session is excluded from the active set of every polling cycle. -/
theorem malformed_created_at_never_active (parse : String → Option Int)
    (now : Int) (s : Session) (hbad : parse s.created_at = none) :
    is_expired parse now s.created_at = true ∧
    ∀ sessions : List Session, s ∉ activeSessions parse now sessions := by
  have hexp : is_expired parse now s.created_at = true := by
    simp [is_expired, hbad]
  refine ⟨hexp, ?_⟩
  intro sessions hmem
  rw [activeSessions, List.mem_filter] at hmem
  rw [hexp] at hmem
  simp at hmem

/-- C10 witness. -/
theorem malformed_created_at_never_active_witness :
    is_expired (fun _ => none) 0 (Session.mk "u" "e" "t" "a" "garbage").created_at
      = true ∧
    ∀ sessions : List Session,
      Session.mk "u" "e" "t" "a" "garbage" ∉
        activeSessions (fun _ => none) 0 sessions :=
  malformed_created_at_never_active (fun _ => none) 0
    (Session.mk "u" "e" "t" "a" "garbage") rfl
